import Mathlib

/-!
Verification of the address-resolution core of the TrafficMonitor IP plugin.

The development shallowly embeds the logic of `src/ip_utils.cpp` and
`src/ip_utils.h`:

* `IsValidIPv4`, `GetIPPriority` — the address scorer (IPv4 addresses are
  modelled as natural numbers in host byte order, exactly the value the C++
  code obtains from `ntohl`);
* `GetInternalIPv4` — the local-address resolver over an explicit list of
  adapter records (the data the Windows `GetAdaptersAddresses` call supplies);
* `ExtractJsonField` — the flat JSON string-field scanner;
* `IpWithCountry.GetCompanyName` — the organization-name formatter;
* `GetExternalIPv4WithCountry` — one call of the external-IP cache; the
  process-wide static variables become an explicit `CacheState`, the
  WinHTTP round-trip becomes an `Option String` input (`none` = any transport
  failure, `some body` = the raw response body), and `steady_clock::now()`
  becomes an explicit `now : Int` in milliseconds.
-/

namespace IpUtils

/-! ### Character-level helpers shared by the string functions -/

/-- Characters skipped between a JSON key and its value: `:`, space, tab
(the loop condition at ip_utils.cpp:53). -/
def isSep (c : Char) : Bool := c == ':' || c == ' ' || c == '\t'

/-- Space or tab, the characters trimmed by `GetCompanyName`. -/
def isSpaceTab (c : Char) : Bool := c == ' ' || c == '\t'

/-- Whitespace trimmed from the HTTP response body (space, tab, CR, LF),
mirroring `find_first_not_of(" \t\r\n")` at ip_utils.cpp:397. -/
def isWs (c : Char) : Bool := c == ' ' || c == '\t' || c == '\r' || c == '\n'

/-- `startsWithChars pat l` is true when `pat` is an initial segment of `l`. -/
def startsWithChars : List Char → List Char → Bool
  | [], _ => true
  | _ :: _, [] => false
  | p :: ps, h :: hs => p == h && startsWithChars ps hs

/-- `afterSub pat l` models `std::string::find`: it returns the remainder of
`l` after the first occurrence of `pat`, or `none` when `pat` does not occur. -/
def afterSub (pat : List Char) : List Char → Option (List Char)
  | [] => if startsWithChars pat [] then some [] else none
  | h :: rest =>
    if startsWithChars pat (h :: rest) then some (List.drop pat.length (h :: rest))
    else afterSub pat rest

/-- The `while (json[start] == ':' || ...)` skip loop at ip_utils.cpp:53. -/
def dropSeps : List Char → List Char
  | [] => []
  | c :: rest => if isSep c then dropSeps rest else c :: rest

/-- `json.find('\x22', start)` at ip_utils.cpp:62 followed by `substr`:
the characters before the next double quote, or `none` when no closing
quote exists. -/
def takeUntilQuote : List Char → Option (List Char)
  | [] => none
  | c :: rest =>
    if c == '"' then some [] else (takeUntilQuote rest).map (fun v => c :: v)

/-! ### ExtractJsonField (ip_utils.cpp:43-66) -/

/-- `ExtractJsonField(json, field)`: locate the quoted key, skip `:`/space/tab,
require a string value, and return the text up to the closing quote. -/
def ExtractJsonField (json field : String) : String :=
  match afterSub ("\"" ++ field ++ "\"").data json.data with
  | none => ""
  | some rest =>
    match dropSeps rest with
    | [] => ""
    | c :: rest2 =>
      if c == '"' then
        match takeUntilQuote rest2 with
        | none => ""
        | some v => String.mk v
      else ""

/-! ### Address scorer (ip_utils.cpp:74-121) -/

/-- `IsValidIPv4`: the address (already in host byte order) is rejected when it
is the loopback address `127.0.0.1` (`0x7F000001`) or all zeros. -/
def IsValidIPv4 (addr : Nat) : Bool :=
  if addr = 0x7F000001 then false else addr != 0

/-- `GetIPPriority`: 100 for `192.168.0.0/16`, 50 for `10.0.0.0/8`, 30 for
`172.16.0.0/12`, 10 for any other address that is neither loopback nor zero,
and 0 otherwise. -/
def GetIPPriority (addr : Nat) : Nat :=
  if addr &&& 0xFFFF0000 = 0xC0A80000 then 100
  else if addr &&& 0xFF000000 = 0x0A000000 then 50
  else if addr &&& 0xFFF00000 = 0xAC100000 then 30
  else if addr ≠ 0x7F000001 ∧ addr ≠ 0 then 10
  else 0

/-- The scorer as the specification words it: the reject rule first, then the
three private ranges, then the default, first match wins. -/
def specPriority (addr : Nat) : Nat :=
  if addr = 0x7F000001 ∨ addr = 0 then 0
  else if addr &&& 0xFFFF0000 = 0xC0A80000 then 100
  else if addr &&& 0xFF000000 = 0x0A000000 then 50
  else if addr &&& 0xFFF00000 = 0xAC100000 then 30
  else 10

/-! ### Local-address resolver (ip_utils.cpp:133-260) -/

/-- The dotted-decimal rendering `WSAAddressToStringW` produces for an IPv4
unicast address (the port is zero, so no `:port` suffix is appended). -/
def ipToString (addr : Nat) : String :=
  toString ((addr >>> 24) % 256) ++ "." ++ toString ((addr >>> 16) % 256) ++ "." ++
    toString ((addr >>> 8) % 256) ++ "." ++ toString (addr % 256)

/-- One `IP_ADAPTER_ADDRESSES` record as the resolver consumes it:
the friendly name, the (UTF-8 converted) adapter name, the operational-up
flag, the software-loopback interface-type flag, and the ordered IPv4
unicast addresses. -/
structure AdapterRecord where
  friendlyName : String
  adapterName : String
  isUp : Bool
  isLoopback : Bool
  addrs : List Nat
deriving DecidableEq, Repr

/-- The adapter filter applied in both passes at ip_utils.cpp:193 and 232:
keep adapters that are operationally up and not of loopback type. -/
def adapterFilter (a : AdapterRecord) : Bool := a.isUp && !a.isLoopback

/-- The shared best-address scan (the `pick_from` lambda body and the
fallback loop): walk the addresses, and whenever a valid address has a
priority strictly greater than the best so far, make it the new best. -/
def scanBest : List Nat → String × Nat → String × Nat
  | [], acc => acc
  | a :: rest, acc =>
    if IsValidIPv4 a = true ∧ GetIPPriority a > acc.2 then
      scanBest rest (ipToString a, GetIPPriority a)
    else
      scanBest rest acc

/-- The `pick_from` lambda at ip_utils.cpp:161-187: best address of a single
adapter, the empty string when the adapter has no valid address. -/
def pick_from (a : AdapterRecord) : String :=
  (scanBest a.addrs ("", 0)).1

/-- The preferred-adapter pass at ip_utils.cpp:190-222: the first up,
non-loopback adapter whose friendly name or adapter name equals the
preference and whose `pick_from` result is non-empty wins. -/
def preferredPass : List AdapterRecord → String → String
  | [], _ => ""
  | a :: rest, preferred =>
    if adapterFilter a = true ∧
        (a.friendlyName = preferred ∨ a.adapterName = preferred) then
      if pick_from a ≠ "" then pick_from a else preferredPass rest preferred
    else preferredPass rest preferred

/-- The fallback pass at ip_utils.cpp:224-259: one `scanBest` accumulator
threaded through the addresses of every up, non-loopback adapter. -/
def fallbackScan (adapters : List AdapterRecord) : String :=
  ((adapters.filter adapterFilter).foldl (fun acc a => scanBest a.addrs acc) ("", 0)).1

/-- `GetInternalIPv4`: run the preferred pass when a preference is given and
return its result if non-empty; otherwise run the global fallback scan. -/
def GetInternalIPv4 (adapters : List AdapterRecord) (preferred_adapter : String) : String :=
  if preferred_adapter ≠ "" then
    if preferredPass adapters preferred_adapter ≠ "" then
      preferredPass adapters preferred_adapter
    else fallbackScan adapters
  else fallbackScan adapters

/-- Maximum priority over a list of candidate addresses. -/
def maxScore (l : List Nat) : Nat :=
  l.foldr (fun a m => max (GetIPPriority a) m) 0

/-- The fallback pass as the specification words it: collect the addresses
of all filtered adapters, and return the first address whose score reaches
the global maximum (ties do not replace the current best), or the empty
string when every candidate is rejected. -/
def specResolveFallback (adapters : List AdapterRecord) : String :=
  let cs := ((adapters.filter adapterFilter).map AdapterRecord.addrs).flatten
  if maxScore cs = 0 then ""
  else
    match cs.find? (fun a => GetIPPriority a == maxScore cs) with
    | some a => ipToString a
    | none => ""

/-! ### External-IP result and company-name formatter (ip_utils.h:22-110) -/

/-- `IpWithCountry`: the external lookup result. -/
structure IpWithCountry where
  ip : String := ""
  country : String := ""
  as_name : String := ""
deriving DecidableEq, Repr

/-- `IsValid()`: the result is valid exactly when the address is non-empty. -/
def IpWithCountry.IsValid (r : IpWithCountry) : Bool := r.ip != ""

/-- Leading space/tab trim (the first `while` loop of `GetCompanyName`). -/
def trimLeading (l : List Char) : List Char := l.dropWhile isSpaceTab

/-- Trailing space/tab trim (the `pop_back` loops of `GetCompanyName`). -/
def trimTrailing (l : List Char) : List Char :=
  (l.reverse.dropWhile isSpaceTab).reverse

/-- `endsWithChars sfx l`: `l.rfind(sfx)` lands exactly at
`l.length - sfx.length`, i.e. `l` ends with `sfx`. -/
def endsWithChars (sfx l : List Char) : Bool :=
  startsWithChars sfx.reverse l.reverse

/-- The fixed company-suffix list at ip_utils.h:91. -/
def companySuffixes : List (List Char) :=
  [" Inc.".data, " LLC".data, " Ltd.".data, " Corp.".data,
   " Corporation".data, " Services".data]

/-- The suffix loop at ip_utils.h:92-105: strip the first suffix the name
ends with, provided the trimmed remainder is non-empty, then stop. -/
def stripSuffixLoop : List (List Char) → List Char → List Char
  | [], name => name
  | sfx :: rest, name =>
    if endsWithChars sfx name = true then
      let without := trimTrailing (name.take (name.length - sfx.length))
      if without ≠ [] then without else stripSuffixLoop rest name
    else stripSuffixLoop rest name

/-- The body of `GetCompanyName` on the character list of `as_name`. -/
def companyFromAsName (asName : List Char) : List Char :=
  if asName = [] then []
  else
    let name0 := trimTrailing (trimLeading asName)
    let name1 :=
      if name0.take 2 = ['A', 'S'] then
        match name0.findIdx? (fun c => c == ' ') with
        | some sp =>
          if sp + 1 < name0.length then trimLeading (name0.drop (sp + 1)) else name0
        | none => name0
      else name0
    let name2 :=
      match name1.findIdx? (fun c => c == ',') with
      | some cp =>
        let front := trimTrailing (name1.take cp)
        if front ≠ [] then front else name1
      | none => name1
    let name3 := stripSuffixLoop companySuffixes name2
    if name3 = [] then asName else name3

/-- `GetCompanyName()` at ip_utils.h:50-109. -/
def IpWithCountry.GetCompanyName (r : IpWithCountry) : String :=
  String.mk (companyFromAsName r.as_name.data)

/-! ### External-IP cache (ip_utils.cpp:272-446) -/

/-- `CacheStrategy` at ip_utils.h:119-124. -/
inductive CacheStrategy
  | FIXED
  | ADAPTIVE
  | NETWORK_EVENT
  | HYBRID
deriving DecidableEq, Repr

/-- `ExternalIpOptions` at ip_utils.h:126-139; the intervals are in
milliseconds and default to the source defaults (5 min / 30 s / 15 min). -/
structure ExternalIpOptions where
  connect_timeout_ms : Nat := 3000
  send_timeout_ms : Nat := 3000
  receive_timeout_ms : Nat := 5000
  strategy : CacheStrategy := CacheStrategy.HYBRID
  min_refresh : Int := 300000
  fast_refresh : Int := 30000
  max_refresh : Int := 900000
  adaptive_cycles : Int := 6
deriving DecidableEq, Repr

/-- The static variables of `GetExternalIPv4WithCountry` (ip_utils.cpp:274-279)
made explicit.  `last_fetch` and `last_change` are `steady_clock` time points
in milliseconds since the clock epoch; the value `0` is the default-initialised
time point (`time_since_epoch().count() == 0` means "never fetched"). -/
structure CacheState where
  cached_result : IpWithCountry := {}
  last_fetch : Int := 0
  last_change : Int := 0
  fast_mode_counter : Int := 0
  last_internal_ip : String := ""
deriving DecidableEq, Repr

/-- The change-detection step at ip_utils.cpp:288-297: compare the fresh
internal-IP snapshot with the stored one; on a change record the time,
restart fast mode and store the snapshot; on the first call just store the
snapshot. Returns the updated state and the `network_changed` flag. -/
def detectChange (opt : ExternalIpOptions) (now : Int) (current_internal_ip : String)
    (s : CacheState) : CacheState × Bool :=
  if s.last_internal_ip ≠ "" ∧ current_internal_ip ≠ s.last_internal_ip then
    ({ s with last_change := now, fast_mode_counter := opt.adaptive_cycles,
              last_internal_ip := current_internal_ip }, true)
  else if s.last_internal_ip = "" then
    ({ s with last_internal_ip := current_internal_ip }, false)
  else (s, false)

/-- The `switch (opt.strategy)` at ip_utils.cpp:308-332: the refresh interval
for this call, together with the state (fast-mode counter decremented when it
was consumed). `3600000` ms is the one-hour stability threshold. -/
def computeRefreshInterval (opt : ExternalIpOptions) (now : Int) (s : CacheState) :
    Int × CacheState :=
  match opt.strategy with
  | CacheStrategy.FIXED => (opt.min_refresh, s)
  | CacheStrategy.ADAPTIVE | CacheStrategy.HYBRID =>
    if s.fast_mode_counter > 0 then
      (opt.fast_refresh, { s with fast_mode_counter := s.fast_mode_counter - 1 })
    else if now - s.last_change > 3600000 then (opt.max_refresh, s)
    else (opt.min_refresh, s)
  | CacheStrategy.NETWORK_EVENT => (opt.max_refresh, s)

/-- The response parser at ip_utils.cpp:396-430: trim the body, extract `ip`
(falling back to `origin`) and `country`; `as_name` is never assigned. -/
def parseResponse (data : String) : IpWithCountry :=
  let trimmed : List Char := ((data.data.dropWhile isWs).reverse.dropWhile isWs).reverse
  if trimmed = [] then {}
  else
    let ip := ExtractJsonField (String.mk trimmed) "ip"
    let ip := if ip = "" then ExtractJsonField (String.mk trimmed) "origin" else ip
    let country := ExtractJsonField (String.mk trimmed) "country"
    { ip := ip, country := country, as_name := "" }

/-- What the WinHTTP round-trip produced: `none` is any transport failure
(session, connect, request, send or receive failing), `some body` is the raw
response body that was read. -/
def fetchResult : Option String → IpWithCountry
  | none => {}
  | some data => parseResponse data

/-- The result of one call: the returned `IpWithCountry`, the state left in
the static variables, and whether the call went to the network. -/
structure StepResult where
  result : IpWithCountry
  state : CacheState
  fetched : Bool
deriving DecidableEq, Repr

/-- Steps 1-8 after the cache decision (ip_utils.cpp:340-445): perform the
fetch, and update `cached_result`/`last_fetch` only when the new result is
valid. -/
def doFetch (fetch : Option String) (now : Int) (s : CacheState) : StepResult :=
  if (fetchResult fetch).IsValid = true then
    { result := fetchResult fetch,
      state := { s with cached_result := fetchResult fetch, last_fetch := now },
      fetched := true }
  else
    { result := fetchResult fetch, state := s, fetched := true }

/-- One call of `GetExternalIPv4WithCountry` (ip_utils.cpp:272-446):
change detection, then the cache-hit check (skipped on force-refresh or on a
detected network change, and only taken when a valid result with a recorded
fetch time is cached), then the fetch. -/
def GetExternalIPv4WithCountry (opt : ExternalIpOptions) (force_refresh : Bool)
    (current_internal_ip : String) (fetch : Option String) (now : Int)
    (s : CacheState) : StepResult :=
  let d := detectChange opt now current_internal_ip s
  if force_refresh = true ∨ d.2 = true then
    doFetch fetch now d.1
  else if d.1.cached_result.IsValid = true ∧ d.1.last_fetch ≠ 0 then
    let r := computeRefreshInterval opt now d.1
    if now - d.1.last_fetch < r.1 then
      { result := d.1.cached_result, state := r.2, fetched := false }
    else
      doFetch fetch now r.2
  else
    doFetch fetch now d.1

/-! ### Lemmas about the scorer -/

lemma validIPv4_iff (a : Nat) : IsValidIPv4 a = true ↔ (a ≠ 0x7F000001 ∧ a ≠ 0) := by
  unfold IsValidIPv4
  split <;> simp_all

lemma GetIPPriority_loopback : GetIPPriority 0x7F000001 = 0 := by decide

lemma GetIPPriority_zero : GetIPPriority 0 = 0 := by decide

/-- The validity guard in the scan condition is redundant: a strictly positive
priority already implies a valid address. -/
lemma scan_cond_iff (a p : Nat) :
    (IsValidIPv4 a = true ∧ GetIPPriority a > p) ↔ GetIPPriority a > p := by
  constructor
  · exact fun h => h.2
  · intro h
    refine ⟨(validIPv4_iff a).mpr ⟨?_, ?_⟩, h⟩
    · rintro rfl
      rw [GetIPPriority_loopback] at h
      omega
    · rintro rfl
      rw [GetIPPriority_zero] at h
      omega

/-! ### Lemmas about the best-address scan -/

lemma maxScore_nil : maxScore [] = 0 := rfl

lemma maxScore_cons (a : Nat) (l : List Nat) :
    maxScore (a :: l) = max (GetIPPriority a) (maxScore l) := rfl

lemma scanBest_no_improve (l : List Nat) (best : String) (p : Nat)
    (h : maxScore l ≤ p) : scanBest l (best, p) = (best, p) := by
  induction l with
  | nil => rfl
  | cons a rest ih =>
    rw [maxScore_cons, max_le_iff] at h
    obtain ⟨hq, hrest⟩ := h
    simp only [scanBest]
    rw [if_neg]
    · exact ih hrest
    · rw [scan_cond_iff]
      omega

lemma scanBest_improve (l : List Nat) (best : String) (p : Nat)
    (h : p < maxScore l) :
    ∃ a, l.find? (fun x => GetIPPriority x == maxScore l) = some a ∧
      scanBest l (best, p) = (ipToString a, maxScore l) := by
  induction l generalizing best p with
  | nil => rw [maxScore_nil] at h; omega
  | cons a rest ih =>
    rw [maxScore_cons] at h
    by_cases hq : GetIPPriority a > p
    · by_cases hm : maxScore rest ≤ GetIPPriority a
      · have hM : maxScore (a :: rest) = GetIPPriority a := by
          rw [maxScore_cons]; omega
        refine ⟨a, ?_, ?_⟩
        · rw [List.find?_cons_of_pos]
          rw [hM]
          simp
        · simp only [scanBest]
          rw [if_pos ((scan_cond_iff a p).mpr hq), hM,
            scanBest_no_improve rest _ _ hm]
      · have hM : maxScore (a :: rest) = maxScore rest := by
          rw [maxScore_cons]; omega
        obtain ⟨b, hfind, hscan⟩ := ih (ipToString a) (GetIPPriority a) (by omega)
        refine ⟨b, ?_, ?_⟩
        · rw [hM, List.find?_cons_of_neg]
          · exact hfind
          · simp only [beq_iff_eq]
            omega
        · simp only [scanBest]
          rw [if_pos ((scan_cond_iff a p).mpr hq), hM]
          exact hscan
    · have hrest : p < maxScore rest := by omega
      have hM : maxScore (a :: rest) = maxScore rest := by
        rw [maxScore_cons]; omega
      obtain ⟨b, hfind, hscan⟩ := ih best p hrest
      refine ⟨b, ?_, ?_⟩
      · rw [hM, List.find?_cons_of_neg]
        · exact hfind
        · simp only [beq_iff_eq]
          omega
      · simp only [scanBest]
        rw [if_neg, hM]
        · exact hscan
        · rw [scan_cond_iff]
          omega

lemma scanBest_append (l1 l2 : List Nat) (acc : String × Nat) :
    scanBest (l1 ++ l2) acc = scanBest l2 (scanBest l1 acc) := by
  induction l1 generalizing acc with
  | nil => rfl
  | cons a rest ih =>
    simp only [List.cons_append, scanBest]
    split
    · exact ih _
    · exact ih _

lemma foldl_scanBest (ads : List AdapterRecord) (acc : String × Nat) :
    ads.foldl (fun acc a => scanBest a.addrs acc) acc =
      scanBest ((ads.map AdapterRecord.addrs).flatten) acc := by
  induction ads generalizing acc with
  | nil => rfl
  | cons a rest ih =>
    simp only [List.foldl_cons, List.map_cons, List.flatten_cons, scanBest_append]
    exact ih _

/-- C3: the priority function returns 0 for the loopback address 127.0.0.1 and
for the all-zeros address, 100 on 192.168.0.0/16, 50 on 10.0.0.0/8, 30 on
172.16.0.0/12 and 10 elsewhere, and this agrees with the first-match-wins
rule order of the specification in which the reject rule comes first
(`specPriority`); the boundary values of every range evaluate accordingly. -/
theorem C3_scorer_mapping :
    (∀ addr : Nat, GetIPPriority addr = specPriority addr) ∧
    GetIPPriority 0x7F000001 = 0 ∧ GetIPPriority 0 = 0 ∧
    GetIPPriority 0xC0A80000 = 100 ∧ GetIPPriority 0xC0A8FFFF = 100 ∧
    GetIPPriority 0x0A000000 = 50 ∧ GetIPPriority 0x0AFFFFFF = 50 ∧
    GetIPPriority 0xAC100000 = 30 ∧ GetIPPriority 0xAC1FFFFF = 30 ∧
    GetIPPriority 0xAC200000 = 10 ∧ GetIPPriority 0xAC0FFFFF = 10 ∧
    GetIPPriority 0xC0A90000 = 10 ∧ GetIPPriority 0x08080808 = 10 := by
  refine ⟨?_, by decide, by decide, by decide, by decide, by decide, by decide,
    by decide, by decide, by decide, by decide, by decide, by decide⟩
  intro addr
  unfold GetIPPriority specPriority
  by_cases h1 : addr = 0x7F000001
  · subst h1; decide
  · by_cases h2 : addr = 0
    · subst h2; decide
    · simp [h1, h2]

/-- C4: with no preferred adapter, `GetInternalIPv4` equals the
specification's fallback pass (first address reaching the global maximum
score across all up, non-loopback adapters; an equal later score does not
replace the current best), and on the adapters
`[{up, addrs := [10.0.0.9]}, {up, addrs := [192.168.1.5]}]` it returns
`192.168.1.5`. -/
theorem C4_fallback_first_max :
    (∀ adapters : List AdapterRecord,
      GetInternalIPv4 adapters "" = specResolveFallback adapters) ∧
    GetInternalIPv4
      [{ friendlyName := "eth0", adapterName := "g1", isUp := true,
         isLoopback := false, addrs := [167772169] },
       { friendlyName := "wifi", adapterName := "g2", isUp := true,
         isLoopback := false, addrs := [3232235781] }] "" = "192.168.1.5" := by
  constructor
  · intro adapters
    unfold GetInternalIPv4 fallbackScan specResolveFallback
    rw [if_neg (by simp), foldl_scanBest]
    by_cases h : maxScore (((adapters.filter adapterFilter).map AdapterRecord.addrs).flatten) = 0
    · rw [scanBest_no_improve _ _ _ (le_of_eq h), if_pos h]
    · have hp : 0 < maxScore (((adapters.filter adapterFilter).map AdapterRecord.addrs).flatten) :=
        Nat.pos_of_ne_zero h
      obtain ⟨a, hfind, hscan⟩ := scanBest_improve _ "" 0 hp
      rw [hscan, if_neg h, hfind]
  · decide

/-- All zero-priority addresses make one adapter's scan come up empty. -/
lemma maxScore_zero_of_all (l : List Nat) (h : ∀ x ∈ l, GetIPPriority x = 0) :
    maxScore l = 0 := by
  induction l with
  | nil => rfl
  | cons a rest ih =>
    rw [maxScore_cons, ih (fun x hx => h x (List.mem_cons_of_mem a hx)),
      h a (List.mem_cons_self a rest)]
    omega

lemma pick_from_empty (a : AdapterRecord) (h : ∀ x ∈ a.addrs, GetIPPriority x = 0) :
    pick_from a = "" := by
  unfold pick_from
  rw [scanBest_no_improve _ _ _ (le_of_eq (maxScore_zero_of_all _ h))]

lemma preferredPass_miss (adapters : List AdapterRecord) (preferred : String)
    (h : ∀ a ∈ adapters, a.friendlyName = preferred ∨ a.adapterName = preferred →
         ∀ x ∈ a.addrs, GetIPPriority x = 0) :
    preferredPass adapters preferred = "" := by
  induction adapters with
  | nil => rfl
  | cons a rest ih =>
    have hrest := ih (fun b hb => h b (List.mem_cons_of_mem a hb))
    unfold preferredPass
    split
    · next hcond =>
      rw [pick_from_empty a (h a (List.mem_cons_self a rest) hcond.2)]
      simp only [ne_eq, not_true_eq_false, reduceIte]
      exact hrest
    · exact hrest

/-- C5: when a preferred adapter is named but every address of every matching
adapter scores 0, the resolver falls through to the global fallback pass
(the result is the one the call without preference returns), and in the
concrete instance where the matching adapter's only address is 0.0.0.0 it
returns the best address of the other up adapter rather than the empty
string. -/
theorem C5_preferred_miss_falls_through :
    (∀ (adapters : List AdapterRecord) (preferred : String), preferred ≠ "" →
      (∀ a ∈ adapters, a.friendlyName = preferred ∨ a.adapterName = preferred →
        ∀ x ∈ a.addrs, GetIPPriority x = 0) →
      GetInternalIPv4 adapters preferred = GetInternalIPv4 adapters "") ∧
    GetInternalIPv4
      [{ friendlyName := "eth0", adapterName := "g1", isUp := true,
         isLoopback := false, addrs := [0] },
       { friendlyName := "wifi", adapterName := "g2", isUp := true,
         isLoopback := false, addrs := [3232235781] }] "eth0" = "192.168.1.5" := by
  constructor
  · intro adapters preferred hp hmiss
    unfold GetInternalIPv4
    rw [preferredPass_miss adapters preferred hmiss]
    simp [hp]
  · decide

/-- C5 witness: the concrete fall-through instance, through the theorem. -/
theorem C5_witness :
    GetInternalIPv4
      [{ friendlyName := "eth0", adapterName := "g1", isUp := true,
         isLoopback := false, addrs := [0] },
       { friendlyName := "wifi", adapterName := "g2", isUp := true,
         isLoopback := false, addrs := [3232235781] }] "eth0" =
    GetInternalIPv4
      [{ friendlyName := "eth0", adapterName := "g1", isUp := true,
         isLoopback := false, addrs := [0] },
       { friendlyName := "wifi", adapterName := "g2", isUp := true,
         isLoopback := false, addrs := [3232235781] }] "" :=
  C5_preferred_miss_falls_through.1 _ "eth0" (by decide) (by decide)

/-! ### Lemmas about the JSON field extractor -/

/-- The extractor as the specification words it: locate the quoted key, skip
the run of `:`/space/tab with `dropWhile`, require a double quote, and return
the characters up to the next double quote provided a closing quote exists. -/
def specJsonExtract (text field : String) : String :=
  match afterSub ("\"" ++ field ++ "\"").data text.data with
  | none => ""
  | some rest =>
    match rest.dropWhile isSep with
    | [] => ""
    | c :: rest2 =>
      if c = '"' then
        if rest2.contains '"' then String.mk (rest2.takeWhile (fun x => x != '"'))
        else ""
      else ""

lemma dropSeps_eq_dropWhile (l : List Char) : dropSeps l = l.dropWhile isSep := by
  induction l with
  | nil => rfl
  | cons c rest ih =>
    simp only [dropSeps, List.dropWhile_cons]
    split <;> simp_all

lemma takeUntilQuote_eq (l : List Char) :
    takeUntilQuote l =
      if l.contains '"' then some (l.takeWhile (fun x => x != '"')) else none := by
  induction l with
  | nil => rfl
  | cons c rest ih =>
    by_cases h : c = '"'
    · subst h
      have hc : (('"' :: rest).contains '"') = true := by
        rw [List.contains_cons]; simp
      rw [hc, if_pos rfl]
      simp [takeUntilQuote, List.takeWhile_cons]
    · have hb : (c == '"') = false := by simp [h]
      have hcc : ((c :: rest).contains '"') = rest.contains '"' := by
        rw [List.contains_cons]
        have : ('"' == c) = false := by simp [Ne.symm h]
        rw [this, Bool.false_or]
      simp only [takeUntilQuote, hb, Bool.false_eq_true, reduceIte, ih, hcc,
        List.takeWhile_cons]
      have hbne : (c != '"') = true := by simp [bne, hb]
      rw [hbne]
      by_cases hr : rest.contains '"' = true
      · rw [hr]; simp
      · simp only [Bool.not_eq_true] at hr
        rw [hr]; simp

lemma startsWithChars_iff (pat l : List Char) :
    startsWithChars pat l = true ↔ ∃ r, l = pat ++ r := by
  induction pat generalizing l with
  | nil =>
    simp only [startsWithChars, List.nil_append]
    constructor
    · exact fun _ => ⟨l, rfl⟩
    · exact fun _ => by simp
  | cons p ps ih =>
    cases l with
    | nil =>
      simp only [startsWithChars]
      constructor
      · intro h; exact absurd h (by simp)
      · rintro ⟨r, hr⟩; exact absurd hr (by simp)
    | cons c cs =>
      simp only [startsWithChars, Bool.and_eq_true, beq_iff_eq, ih,
        List.cons_append, List.cons.injEq]
      constructor
      · rintro ⟨rfl, r, rfl⟩; exact ⟨r, rfl, rfl⟩
      · rintro ⟨r, rfl, rfl⟩; exact ⟨rfl, r, rfl⟩

lemma afterSub_isSome_of_split (pat l r : List Char) :
    afterSub pat (l ++ pat ++ r) ≠ none := by
  induction l with
  | nil =>
    have hs : startsWithChars pat (pat ++ r) = true :=
      (startsWithChars_iff pat (pat ++ r)).mpr ⟨r, rfl⟩
    rw [List.nil_append]
    cases hpr : pat ++ r with
    | nil =>
      rw [hpr] at hs
      simp [afterSub, hs]
    | cons c cs =>
      rw [hpr] at hs
      simp [afterSub, hs]
  | cons c l2 ih =>
    have hx : (c :: l2) ++ pat ++ r = c :: (l2 ++ pat ++ r) := by simp
    rw [hx]
    simp only [afterSub]
    split
    · simp
    · exact ih

lemma afterSub_some_split (pat hay rest : List Char)
    (h : afterSub pat hay = some rest) : ∃ l r, hay = l ++ pat ++ r := by
  induction hay generalizing rest with
  | nil =>
    unfold afterSub at h
    split at h
    · next hs =>
      obtain ⟨r, hr⟩ := (startsWithChars_iff pat []).mp hs
      exact ⟨[], r, by rw [List.nil_append]; exact hr⟩
    · exact absurd h (by simp)
  | cons c cs ih =>
    unfold afterSub at h
    split at h
    · next hs =>
      obtain ⟨r, hr⟩ := (startsWithChars_iff pat (c :: cs)).mp hs
      exact ⟨[], r, by rw [List.nil_append]; exact hr⟩
    · obtain ⟨l, r, hr⟩ := ih _ h
      exact ⟨c :: l, r, by rw [hr]; simp⟩

theorem C8_json_field_extractor :
    (∀ text field : String, ExtractJsonField text field = specJsonExtract text field) ∧
    (∀ text field : String,
      (¬ ∃ l r, text.data = l ++ ("\"" ++ field ++ "\"").data ++ r) →
      ExtractJsonField text field = "") ∧
    ExtractJsonField "\x7b\"ip\":\"8.8.8.8\",\"country\":\"US\"\x7d" "ip" = "8.8.8.8" ∧
    ExtractJsonField "\x7b\"ip\":\"8.8.8.8\",\"country\":\"US\"\x7d" "missing" = "" := by
  refine ⟨?_, ?_, by decide, by decide⟩
  · intro text field
    unfold ExtractJsonField specJsonExtract
    cases hA : afterSub ("\"" ++ field ++ "\"").data text.data with
    | none => rfl
    | some rest =>
      dsimp only
      rw [dropSeps_eq_dropWhile]
      cases hD : rest.dropWhile isSep with
      | nil => rfl
      | cons c rest2 =>
        dsimp only
        by_cases hc : c = '"'
        · subst hc
          rw [if_pos (by simp : (('"' : Char) == '"') = true), if_pos rfl,
            takeUntilQuote_eq]
          by_cases hq : rest2.contains '"' = true
          · rw [hq]
            rfl
          · simp only [Bool.not_eq_true] at hq
            rw [hq]
            simp
        · have hb : (c == '"') = false := by simp [hc]
          rw [hb]
          simp [hc]
  · intro text field hno
    cases hA : afterSub ("\"" ++ field ++ "\"").data text.data with
    | none =>
      unfold ExtractJsonField
      rw [hA]
    | some rest =>
      obtain ⟨l, r, hr⟩ := afterSub_some_split _ _ _ hA
      exact absurd ⟨l, r, hr⟩ hno

theorem C8_witness : ExtractJsonField "abc" "ip" = "" := by
  apply C8_json_field_extractor.2.1 "abc" "ip"
  rintro ⟨l, r, h⟩
  exact afterSub_isSome_of_split ("\"" ++ "ip" ++ "\"").data l r (h ▸ (by decide))

/-! ### Lemmas about the cache state machine -/

lemma detectChange_fields (opt : ExternalIpOptions) (now : Int) (cur : String)
    (s : CacheState) :
    (detectChange opt now cur s).1.cached_result = s.cached_result ∧
    (detectChange opt now cur s).1.last_fetch = s.last_fetch ∧
    (detectChange opt now cur s).1.last_internal_ip = cur := by
  unfold detectChange
  by_cases h1 : s.last_internal_ip ≠ "" ∧ cur ≠ s.last_internal_ip
  · simp [h1]
  · by_cases h2 : s.last_internal_ip = ""
    · simp [h1, h2]
    · push_neg at h1
      simp [h1, h2]

lemma detectChange_same (opt : ExternalIpOptions) (now : Int) (cur : String)
    (s : CacheState) (h : s.last_internal_ip = cur) :
    detectChange opt now cur s = (s, false) := by
  unfold detectChange
  rw [if_neg (by rintro ⟨_, hne⟩; exact hne h.symm)]
  by_cases he : s.last_internal_ip = ""
  · rw [if_pos he, ← h]
  · rw [if_neg he]

lemma computeRefreshInterval_fields (opt : ExternalIpOptions) (now : Int)
    (s : CacheState) :
    (computeRefreshInterval opt now s).2.cached_result = s.cached_result ∧
    (computeRefreshInterval opt now s).2.last_fetch = s.last_fetch ∧
    (computeRefreshInterval opt now s).2.last_change = s.last_change ∧
    (computeRefreshInterval opt now s).2.last_internal_ip = s.last_internal_ip := by
  unfold computeRefreshInterval
  rcases hst : opt.strategy <;> simp only [hst] <;> (try split) <;> (try split) <;> simp

lemma doFetch_fields (fetch : Option String) (now : Int) (s : CacheState) :
    (doFetch fetch now s).fetched = true ∧
    (doFetch fetch now s).result = fetchResult fetch ∧
    (doFetch fetch now s).state.fast_mode_counter = s.fast_mode_counter ∧
    (doFetch fetch now s).state.last_change = s.last_change ∧
    (doFetch fetch now s).state.last_internal_ip = s.last_internal_ip := by
  unfold doFetch
  split <;> exact ⟨rfl, rfl, rfl, rfl, rfl⟩

lemma doFetch_update (fetch : Option String) (now : Int) (s : CacheState) :
    ((fetchResult fetch).IsValid = true ∧
      (doFetch fetch now s).state.cached_result = fetchResult fetch ∧
      (doFetch fetch now s).state.last_fetch = now) ∨
    ((fetchResult fetch).IsValid = false ∧
      (doFetch fetch now s).state = s) := by
  by_cases h : (fetchResult fetch).IsValid = true
  · left
    unfold doFetch
    rw [if_pos h]
    exact ⟨h, rfl, rfl⟩
  · right
    unfold doFetch
    rw [if_neg h]
    exact ⟨by simpa using h, rfl⟩

lemma step_hit (opt : ExternalIpOptions) (cur : String) (fetch : Option String)
    (now : Int) (s : CacheState)
    (hsnap : s.last_internal_ip = cur)
    (hvalid : s.cached_result.IsValid = true)
    (hf : s.last_fetch ≠ 0)
    (hlt : now - s.last_fetch < (computeRefreshInterval opt now s).1) :
    GetExternalIPv4WithCountry opt false cur fetch now s =
      { result := s.cached_result, state := (computeRefreshInterval opt now s).2,
        fetched := false } := by
  unfold GetExternalIPv4WithCountry
  rw [detectChange_same opt now cur s hsnap]
  simp [hvalid, hf, hlt]

lemma step_miss (opt : ExternalIpOptions) (cur : String) (fetch : Option String)
    (now : Int) (s : CacheState)
    (hsnap : s.last_internal_ip = cur)
    (hvalid : s.cached_result.IsValid = true)
    (hf : s.last_fetch ≠ 0)
    (hge : ¬ now - s.last_fetch < (computeRefreshInterval opt now s).1) :
    GetExternalIPv4WithCountry opt false cur fetch now s =
      doFetch fetch now (computeRefreshInterval opt now s).2 := by
  unfold GetExternalIPv4WithCountry
  rw [detectChange_same opt now cur s hsnap]
  simp [hvalid, hf, hge]

lemma step_cases (opt : ExternalIpOptions) (force_refresh : Bool) (cur : String)
    (fetch : Option String) (now : Int) (s : CacheState) :
    ((GetExternalIPv4WithCountry opt force_refresh cur fetch now s).fetched = false ∧
      (GetExternalIPv4WithCountry opt force_refresh cur fetch now s).result = s.cached_result ∧
      s.cached_result.IsValid = true ∧
      (GetExternalIPv4WithCountry opt force_refresh cur fetch now s).state.cached_result = s.cached_result ∧
      (GetExternalIPv4WithCountry opt force_refresh cur fetch now s).state.last_fetch = s.last_fetch) ∨
    ((GetExternalIPv4WithCountry opt force_refresh cur fetch now s).fetched = true ∧
      (GetExternalIPv4WithCountry opt force_refresh cur fetch now s).result = fetchResult fetch ∧
      (((fetchResult fetch).IsValid = true ∧
        (GetExternalIPv4WithCountry opt force_refresh cur fetch now s).state.cached_result = fetchResult fetch ∧
        (GetExternalIPv4WithCountry opt force_refresh cur fetch now s).state.last_fetch = now) ∨
       ((fetchResult fetch).IsValid = false ∧
        (GetExternalIPv4WithCountry opt force_refresh cur fetch now s).state.cached_result = s.cached_result ∧
        (GetExternalIPv4WithCountry opt force_refresh cur fetch now s).state.last_fetch = s.last_fetch))) := by
  obtain ⟨hdc, hdf, hdl⟩ := detectChange_fields opt now cur s
  obtain ⟨hcc, hcf, hcl, hci⟩ :=
    computeRefreshInterval_fields opt now (detectChange opt now cur s).1
  unfold GetExternalIPv4WithCountry
  by_cases h1 : force_refresh = true ∨ (detectChange opt now cur s).2 = true
  · rw [if_pos h1]
    right
    obtain ⟨w1, w2, w3, w4, w5⟩ := doFetch_fields fetch now (detectChange opt now cur s).1
    refine ⟨w1, w2, ?_⟩
    rcases doFetch_update fetch now (detectChange opt now cur s).1 with ⟨u1, u2, u3⟩ | ⟨u1, u2⟩
    · exact Or.inl ⟨u1, u2, u3⟩
    · right
      rw [u2, hdc, hdf]
      exact ⟨u1, rfl, rfl⟩
  · rw [if_neg h1]
    by_cases h2 : (detectChange opt now cur s).1.cached_result.IsValid = true ∧
        (detectChange opt now cur s).1.last_fetch ≠ 0
    · rw [if_pos h2]
      by_cases h3 : now - (detectChange opt now cur s).1.last_fetch <
          (computeRefreshInterval opt now (detectChange opt now cur s).1).1
      · rw [if_pos h3]
        left
        refine ⟨rfl, hdc, ?_, ?_, ?_⟩
        · rw [← hdc]
          exact h2.1
        · rw [hcc, hdc]
        · rw [hcf, hdf]
      · rw [if_neg h3]
        right
        obtain ⟨w1, w2, w3, w4, w5⟩ :=
          doFetch_fields fetch now (computeRefreshInterval opt now (detectChange opt now cur s).1).2
        refine ⟨w1, w2, ?_⟩
        rcases doFetch_update fetch now
            (computeRefreshInterval opt now (detectChange opt now cur s).1).2 with
          ⟨u1, u2, u3⟩ | ⟨u1, u2⟩
        · exact Or.inl ⟨u1, u2, u3⟩
        · right
          rw [u2, hcc, hcf, hdc, hdf]
          exact ⟨u1, rfl, rfl⟩
    · rw [if_neg h2]
      right
      obtain ⟨w1, w2, w3, w4, w5⟩ := doFetch_fields fetch now (detectChange opt now cur s).1
      refine ⟨w1, w2, ?_⟩
      rcases doFetch_update fetch now (detectChange opt now cur s).1 with ⟨u1, u2, u3⟩ | ⟨u1, u2⟩
      · exact Or.inl ⟨u1, u2, u3⟩
      · right
        rw [u2, hdc, hdf]
        exact ⟨u1, rfl, rfl⟩

/-- C2: on every call the cache fields (`cached_result`, `last_fetch`) are
either left exactly as they were or are overwritten together with the newly
fetched result, and the latter happens only when that result is valid; after
a call returning an invalid result, a subsequent in-window call still returns
the previously cached valid value; and validity is exactly non-emptiness of
the address string. -/
theorem C2_failed_fetch_atomicity (opt : ExternalIpOptions) (force_refresh : Bool)
    (cur : String) (fetch : Option String) (now : Int) (s : CacheState) :
    ((GetExternalIPv4WithCountry opt force_refresh cur fetch now s).result.IsValid = false →
      (GetExternalIPv4WithCountry opt force_refresh cur fetch now s).state.cached_result
          = s.cached_result ∧
      (GetExternalIPv4WithCountry opt force_refresh cur fetch now s).state.last_fetch
          = s.last_fetch) ∧
    (((GetExternalIPv4WithCountry opt force_refresh cur fetch now s).state.cached_result
          ≠ s.cached_result ∨
      (GetExternalIPv4WithCountry opt force_refresh cur fetch now s).state.last_fetch
          ≠ s.last_fetch) →
      (GetExternalIPv4WithCountry opt force_refresh cur fetch now s).result.IsValid = true ∧
      (GetExternalIPv4WithCountry opt force_refresh cur fetch now s).state.cached_result
          = (GetExternalIPv4WithCountry opt force_refresh cur fetch now s).result ∧
      (GetExternalIPv4WithCountry opt force_refresh cur fetch now s).state.last_fetch = now) ∧
    ((GetExternalIPv4WithCountry opt force_refresh cur fetch now s).result.IsValid = false →
      s.cached_result.IsValid = true →
      ∀ (now2 : Int) (fetch2 : Option String),
        (GetExternalIPv4WithCountry opt force_refresh cur fetch now s).state.last_fetch ≠ 0 →
        now2 - (GetExternalIPv4WithCountry opt force_refresh cur fetch now s).state.last_fetch <
          (computeRefreshInterval opt now2
            (GetExternalIPv4WithCountry opt force_refresh cur fetch now s).state).1 →
        (GetExternalIPv4WithCountry opt false
            (GetExternalIPv4WithCountry opt force_refresh cur fetch now s).state.last_internal_ip
            fetch2 now2
            (GetExternalIPv4WithCountry opt force_refresh cur fetch now s).state).result
          = s.cached_result) ∧
    (∀ x : IpWithCountry, x.IsValid = true ↔ x.ip ≠ "") := by
  have hcase := step_cases opt force_refresh cur fetch now s
  refine ⟨?_, ?_, ?_, ?_⟩
  · intro hinv
    rcases hcase with ⟨_, hres, hval, hc, hf⟩ | ⟨_, hres, ⟨hval, _, _⟩ | ⟨_, hc, hf⟩⟩
    · rw [hres] at hinv
      rw [hval] at hinv
      exact absurd hinv (by simp)
    · rw [hres] at hinv
      rw [hval] at hinv
      exact absurd hinv (by simp)
    · exact ⟨hc, hf⟩
  · intro hne
    rcases hcase with ⟨_, _, _, hc, hf⟩ | ⟨_, hres, ⟨hval, hc, hf⟩ | ⟨_, hc, hf⟩⟩
    · rcases hne with hx | hx
      · exact absurd hc hx
      · exact absurd hf hx
    · refine ⟨?_, ?_, hf⟩
      · rw [hres]
        exact hval
      · rw [hres, hc]
    · rcases hne with hx | hx
      · exact absurd hc hx
      · exact absurd hf hx
  · intro hinv hvalid now2 fetch2 hf2 hlt2
    have hpres : (GetExternalIPv4WithCountry opt force_refresh cur fetch now s).state.cached_result
        = s.cached_result := by
      rcases hcase with ⟨_, hres, hval, hc, hf⟩ | ⟨_, hres, ⟨hval, _, _⟩ | ⟨_, hc, hf⟩⟩
      · exact hc
      · rw [hres] at hinv
        rw [hval] at hinv
        exact absurd hinv (by simp)
      · exact hc
    rw [step_hit opt _ fetch2 now2 _ rfl (by rw [hpres]; exact hvalid) hf2 hlt2]
    exact hpres
  · intro x
    unfold IpWithCountry.IsValid
    simp

/-- C2 witness: a failed fetch after a valid cached result leaves the cache
field untouched (forced call, transport failure). -/
theorem C2_witness :
    (GetExternalIPv4WithCountry {} true "A" none 5000
      { cached_result := { ip := "8.8.8.8" }, last_fetch := 1000,
        last_change := 0, fast_mode_counter := 0,
        last_internal_ip := "A" }).state.cached_result = { ip := "8.8.8.8" } :=
  ((C2_failed_fetch_atomicity {} true "A" none 5000
    { cached_result := { ip := "8.8.8.8" }, last_fetch := 1000,
      last_change := 0, fast_mode_counter := 0,
      last_internal_ip := "A" }).1 (by decide)).1

/-- C9: the change flag holds exactly when the stored snapshot is non-empty
and differs from the fresh one; a detected change sets `last_change := now`
and restarts the fast-mode counter at `adaptive_cycles`; and after the
detection step — on every call, including the baseline-establishing first
one — the stored snapshot equals the fresh snapshot. -/
theorem C9_change_detection (opt : ExternalIpOptions) (force_refresh : Bool)
    (cur : String) (fetch : Option String) (now : Int) (s : CacheState) :
    ((detectChange opt now cur s).2 = true ↔
      (s.last_internal_ip ≠ "" ∧ cur ≠ s.last_internal_ip)) ∧
    ((detectChange opt now cur s).2 = true →
      (detectChange opt now cur s).1.last_change = now ∧
      (detectChange opt now cur s).1.fast_mode_counter = opt.adaptive_cycles) ∧
    (detectChange opt now cur s).1.last_internal_ip = cur ∧
    (GetExternalIPv4WithCountry opt force_refresh cur fetch now s).state.last_internal_ip
      = cur := by
  refine ⟨?_, ?_, (detectChange_fields opt now cur s).2.2, ?_⟩
  · unfold detectChange
    by_cases h1 : s.last_internal_ip ≠ "" ∧ cur ≠ s.last_internal_ip
    · simp [h1]
    · by_cases h2 : s.last_internal_ip = ""
      · simp [h1, h2]
      · push_neg at h1
        have hc : cur = s.last_internal_ip := h1 h2
        simp [h2, hc]
  · intro h
    unfold detectChange at h ⊢
    by_cases h1 : s.last_internal_ip ≠ "" ∧ cur ≠ s.last_internal_ip
    · simp [h1]
    · by_cases h2 : s.last_internal_ip = ""
      · simp [h1, h2] at h
      · push_neg at h1
        have hc : cur = s.last_internal_ip := h1 h2
        simp [h2, hc] at h
  · unfold GetExternalIPv4WithCountry
    have hd := (detectChange_fields opt now cur s).2.2
    have hc := (computeRefreshInterval_fields opt now (detectChange opt now cur s).1).2.2.2
    by_cases h1 : force_refresh = true ∨ (detectChange opt now cur s).2 = true
    · rw [if_pos h1, (doFetch_fields fetch now _).2.2.2.2, hd]
    · rw [if_neg h1]
      by_cases h2 : (detectChange opt now cur s).1.cached_result.IsValid = true ∧
          (detectChange opt now cur s).1.last_fetch ≠ 0
      · rw [if_pos h2]
        by_cases h3 : now - (detectChange opt now cur s).1.last_fetch <
            (computeRefreshInterval opt now (detectChange opt now cur s).1).1
        · rw [if_pos h3]
          dsimp only
          rw [hc]
          exact hd
        · rw [if_neg h3, (doFetch_fields fetch now _).2.2.2.2, hc, hd]
      · rw [if_neg h2, (doFetch_fields fetch now _).2.2.2.2, hd]

/-- C9 witness: a changed snapshot stamps the change time, through the
theorem. -/
theorem C9_witness :
    (detectChange {} 5 "B"
      { cached_result := {}, last_fetch := 0, last_change := 0,
        fast_mode_counter := 0, last_internal_ip := "A" }).1.last_change = 5 :=
  ((C9_change_detection {} false "B" none 5
    { cached_result := {}, last_fetch := 0, last_change := 0,
      fast_mode_counter := 0, last_internal_ip := "A" }).2.1 (by decide)).1

lemma parseResponse_as_name (data : String) : (parseResponse data).as_name = "" := by
  simp only [parseResponse]
  split <;> rfl

lemma fetchResult_as_name (fetch : Option String) : (fetchResult fetch).as_name = "" := by
  cases fetch with
  | none => rfl
  | some d => exact parseResponse_as_name d

lemma companyName_of_empty (r : IpWithCountry) (h : r.as_name = "") :
    r.GetCompanyName = "" := by
  unfold IpWithCountry.GetCompanyName
  rw [h]
  decide

/-- C10: the response parser never assigns `as_name`, so — starting from any
state whose cached result carries an empty `as_name`, as the initial static
state does — every call returns a result with empty `as_name`, keeps the
invariant on the cached result, and `GetCompanyName` of the returned result
is always the empty string. -/
theorem C10_as_name_always_empty (opt : ExternalIpOptions) (force_refresh : Bool)
    (cur : String) (fetch : Option String) (now : Int) (s : CacheState)
    (hs : s.cached_result.as_name = "") :
    (∀ data : String, (parseResponse data).as_name = "") ∧
    (GetExternalIPv4WithCountry opt force_refresh cur fetch now s).result.as_name = "" ∧
    (GetExternalIPv4WithCountry opt force_refresh cur fetch now s).state.cached_result.as_name
      = "" ∧
    (GetExternalIPv4WithCountry opt force_refresh cur fetch now s).result.GetCompanyName
      = "" := by
  have hres : (GetExternalIPv4WithCountry opt force_refresh cur fetch now s).result.as_name
      = "" := by
    rcases step_cases opt force_refresh cur fetch now s with ⟨_, hr, _⟩ | ⟨_, hr, _⟩
    · rw [hr]
      exact hs
    · rw [hr]
      exact fetchResult_as_name fetch
  have hstate : (GetExternalIPv4WithCountry opt force_refresh cur
      fetch now s).state.cached_result.as_name = "" := by
    rcases step_cases opt force_refresh cur fetch now s with
      ⟨_, _, _, hc, _⟩ | ⟨_, _, ⟨_, hc, _⟩ | ⟨_, hc, _⟩⟩
    · rw [hc]
      exact hs
    · rw [hc]
      exact fetchResult_as_name fetch
    · rw [hc]
      exact hs
  exact ⟨parseResponse_as_name, hres, hstate, companyName_of_empty _ hres⟩

/-- C10 witness: a concrete call returns a result whose company name is
empty, through the theorem. -/
theorem C10_witness :
    (GetExternalIPv4WithCountry {} false "A"
      (some "\x7b\"ip\":\"8.8.8.8\",\"country\":\"US\"\x7d") 5
      {}).result.GetCompanyName = "" :=
  (C10_as_name_always_empty {} false "A"
    (some "\x7b\"ip\":\"8.8.8.8\",\"country\":\"US\"\x7d") 5 {} rfl).2.2.2

/-- C7 counterexample: the formatter applied to
`AS906 DMIT Cloud Services, Inc.` yields `DMIT Cloud`, not
`DMIT Cloud Services` — the suffix list also strips `" Services"` after the
comma truncation. -/
theorem C7_company_name_counterexample :
    IpWithCountry.GetCompanyName
      { ip := "", country := "", as_name := "AS906 DMIT Cloud Services, Inc." }
      = "DMIT Cloud" ∧
    IpWithCountry.GetCompanyName
      { ip := "", country := "", as_name := "AS906 DMIT Cloud Services, Inc." }
      ≠ "DMIT Cloud Services" := by
  decide

/-- C7 amended: `Format("AS906 DMIT Cloud Services, Inc.") = "DMIT Cloud"`
(the `" Services"` suffix is stripped as well) and `Format("") = ""`. -/
theorem C7_company_name_amended :
    IpWithCountry.GetCompanyName
      { ip := "", country := "", as_name := "AS906 DMIT Cloud Services, Inc." }
      = "DMIT Cloud" ∧
    IpWithCountry.GetCompanyName { ip := "", country := "", as_name := "" } = "" := by
  decide

/-! ### The FIXED-strategy idempotence scenario (C1) -/

def c1Opt : ExternalIpOptions := { strategy := CacheStrategy.FIXED, min_refresh := 300000 }

def c1Body : String := "\x7b\"ip\":\"8.8.8.8\",\"country\":\"US\"\x7d"

def c1S0 : CacheState := { last_internal_ip := "10.0.0.9" }

/-- First call: successful fetch at time `t0`. -/
def c1R1 (t0 : Int) : StepResult :=
  GetExternalIPv4WithCountry c1Opt false "10.0.0.9" (some c1Body) t0 c1S0

/-- Second call, 120 s later, unchanged snapshot, no force-refresh. -/
def c1R2 (t0 : Int) : StepResult :=
  GetExternalIPv4WithCountry c1Opt false "10.0.0.9" none (t0 + 120000) (c1R1 t0).state

/-- Third call, 310 s after the fetch. -/
def c1R3 (t0 : Int) : StepResult :=
  GetExternalIPv4WithCountry c1Opt false "10.0.0.9" none (t0 + 310000) (c1R2 t0).state

def c1S1 (t0 : Int) : CacheState :=
  { cached_result := { ip := "8.8.8.8", country := "US" }, last_fetch := t0,
    last_change := 0, fast_mode_counter := 0, last_internal_ip := "10.0.0.9" }

/-- C1: under the FIXED strategy with `min_refresh = 300` s, a successful
fetch at time `t0` (any positive steady-clock instant) caches the parsed
result; the call at `t0 + 120` s with an unchanged snapshot and no
force-refresh returns the identical cached result without going to the
network and leaves the state untouched; the call at `t0 + 310` s goes to the
network again. -/
theorem C1_cache_idempotence (t0 : Int) (ht : 0 < t0) :
    (c1R1 t0).fetched = true ∧
    (c1R1 t0).result = { ip := "8.8.8.8", country := "US" } ∧
    (c1R1 t0).state.cached_result = (c1R1 t0).result ∧
    (c1R1 t0).state.last_fetch = t0 ∧
    (c1R2 t0).fetched = false ∧
    (c1R2 t0).result = (c1R1 t0).result ∧
    (c1R2 t0).state = (c1R1 t0).state ∧
    (c1R3 t0).fetched = true := by
  have hr1 : c1R1 t0 =
      { result := { ip := "8.8.8.8", country := "US" }, state := c1S1 t0,
        fetched := true } := rfl
  have hr2 : c1R2 t0 =
      { result := { ip := "8.8.8.8", country := "US" }, state := c1S1 t0,
        fetched := false } :=
    step_hit c1Opt "10.0.0.9" none (t0 + 120000) (c1S1 t0) rfl rfl
      (by show t0 ≠ 0; omega)
      (by show (t0 + 120000) - t0 < (300000 : Int); omega)
  have hr3 : c1R3 t0 = doFetch none (t0 + 310000) (c1S1 t0) := by
    unfold c1R3
    rw [hr2]
    exact step_miss c1Opt "10.0.0.9" none (t0 + 310000) (c1S1 t0) rfl rfl
      (by show t0 ≠ 0; omega)
      (by show ¬ (t0 + 310000) - t0 < (300000 : Int); omega)
  refine ⟨?_, ?_, ?_, ?_, ?_, ?_, ?_, ?_⟩
  · rw [hr1]
  · rw [hr1]
  · rw [hr1]
    rfl
  · rw [hr1]
    rfl
  · rw [hr2]
  · rw [hr2, hr1]
  · rw [hr2, hr1]
  · rw [hr3]
    rfl

/-- C1 witness: the scenario at the concrete instant `t0 = 1`. -/
theorem C1_witness :
    (c1R1 1).fetched = true ∧ (c1R2 1).fetched = false ∧ (c1R3 1).fetched = true := by
  obtain ⟨a1, _, _, _, a5, _, _, a8⟩ := C1_cache_idempotence 1 (by decide)
  exact ⟨a1, a5, a8⟩

/-! ### The adaptive fast-mode scenario (C6) -/

def c6Opt : ExternalIpOptions := { strategy := CacheStrategy.HYBRID }

def c6S0 : CacheState :=
  { cached_result := { ip := "8.8.8.8", country := "US" }, last_fetch := 1000,
    last_change := 0, fast_mode_counter := 0, last_internal_ip := "A" }

/-- The change-detecting call (snapshot flips from `A` to `B`). -/
def c6U0 : StepResult := GetExternalIPv4WithCountry c6Opt false "B" none 2000 c6S0

def c6U1 : StepResult := GetExternalIPv4WithCountry c6Opt false "B" none 3000 c6U0.state

def c6U2 : StepResult := GetExternalIPv4WithCountry c6Opt false "B" none 4000 c6U1.state

def c6U3 : StepResult := GetExternalIPv4WithCountry c6Opt false "B" none 5000 c6U2.state

def c6U4 : StepResult := GetExternalIPv4WithCountry c6Opt false "B" none 6000 c6U3.state

def c6U5 : StepResult := GetExternalIPv4WithCountry c6Opt false "B" none 7000 c6U4.state

/-- Sixth qualifying call, 49 s after the fetch: beyond the 30 s fast
interval, so it goes to the network (and fails, leaving the cache). -/
def c6U6 : StepResult := GetExternalIPv4WithCountry c6Opt false "B" none 50000 c6U5.state

/-- Seventh qualifying call: fast mode exhausted, within `min_refresh` but
beyond `fast_refresh`, hence a cache hit. -/
def c6U7 : StepResult := GetExternalIPv4WithCountry c6Opt false "B" none 100000 c6U6.state

/-- A successful refetch once the network has been stable for over an hour. -/
def c6U8 : StepResult :=
  GetExternalIPv4WithCountry c6Opt false "B" (some "\x7b\"ip\":\"9.9.9.9\"\x7d")
    3700000 c6U7.state

/-- Stable for over an hour: within `max_refresh` but beyond `min_refresh`,
hence a cache hit under the `max_refresh` interval. -/
def c6U9 : StepResult := GetExternalIPv4WithCountry c6Opt false "B" none 4100000 c6U8.state

/-- C6: under ADAPTIVE or HYBRID, a call that reaches the cache-interval
computation (valid cached result, recorded fetch time, no force-refresh, no
new change) with a positive fast-mode counter uses `fast_refresh` and
decrements the counter; with the counter exhausted it uses `max_refresh`
when more than one hour has passed since the last change and `min_refresh`
otherwise.  In the concrete trace, the detected change arms the counter at
`adaptive_cycles = 6`, the next six qualifying calls run it down 5, 4, 3, 2,
1, 0 under the 30 s fast interval (the sixth missing the 30 s window and
refetching), and the seventh call is governed by `min_refresh`/`max_refresh`
per the stable-time rule. -/
theorem C6_adaptive_fast_mode :
    (∀ (opt : ExternalIpOptions) (cur : String) (fetch : Option String) (now : Int)
        (s : CacheState),
      (opt.strategy = CacheStrategy.ADAPTIVE ∨ opt.strategy = CacheStrategy.HYBRID) →
      s.last_internal_ip = cur →
      s.cached_result.IsValid = true →
      s.last_fetch ≠ 0 →
      (0 < s.fast_mode_counter →
        (computeRefreshInterval opt now s).1 = opt.fast_refresh ∧
        (GetExternalIPv4WithCountry opt false cur fetch now s).state.fast_mode_counter
          = s.fast_mode_counter - 1 ∧
        ((GetExternalIPv4WithCountry opt false cur fetch now s).fetched = false ↔
          now - s.last_fetch < opt.fast_refresh)) ∧
      (s.fast_mode_counter ≤ 0 →
        (computeRefreshInterval opt now s).1 =
          (if now - s.last_change > 3600000 then opt.max_refresh else opt.min_refresh) ∧
        ((GetExternalIPv4WithCountry opt false cur fetch now s).fetched = false ↔
          now - s.last_fetch <
            (if now - s.last_change > 3600000 then opt.max_refresh
             else opt.min_refresh)))) ∧
    (c6U0.fetched = true ∧ c6U0.state.fast_mode_counter = 6 ∧
      c6U0.state.last_change = 2000 ∧
      c6U1.fetched = false ∧ c6U1.state.fast_mode_counter = 5 ∧
      c6U2.fetched = false ∧ c6U2.state.fast_mode_counter = 4 ∧
      c6U3.fetched = false ∧ c6U3.state.fast_mode_counter = 3 ∧
      c6U4.fetched = false ∧ c6U4.state.fast_mode_counter = 2 ∧
      c6U5.fetched = false ∧ c6U5.state.fast_mode_counter = 1 ∧
      c6U6.fetched = true ∧ c6U6.state.fast_mode_counter = 0 ∧
      c6U7.fetched = false ∧
      c6U8.fetched = true ∧ c6U8.state.last_fetch = 3700000 ∧
      c6U9.fetched = false) := by
  constructor
  · intro opt cur fetch now s hstrat hsnap hvalid hf
    constructor
    · intro hfast
      have hint1 : (computeRefreshInterval opt now s).1 = opt.fast_refresh := by
        unfold computeRefreshInterval
        rcases hstrat with h | h <;> rw [h] <;> dsimp only <;> rw [if_pos hfast]
      have hint2 : (computeRefreshInterval opt now s).2 =
          { s with fast_mode_counter := s.fast_mode_counter - 1 } := by
        unfold computeRefreshInterval
        rcases hstrat with h | h <;> rw [h] <;> dsimp only <;> rw [if_pos hfast]
      refine ⟨hint1, ?_, ?_⟩
      · by_cases hhit : now - s.last_fetch < (computeRefreshInterval opt now s).1
        · rw [step_hit opt cur fetch now s hsnap hvalid hf hhit]
          dsimp only
          rw [hint2]
        · rw [step_miss opt cur fetch now s hsnap hvalid hf hhit,
            (doFetch_fields fetch now _).2.2.1, hint2]
      · by_cases hhit : now - s.last_fetch < (computeRefreshInterval opt now s).1
        · rw [step_hit opt cur fetch now s hsnap hvalid hf hhit]
          rw [hint1] at hhit
          simp [hhit]
        · rw [step_miss opt cur fetch now s hsnap hvalid hf hhit,
            (doFetch_fields fetch now _).1]
          rw [hint1] at hhit
          simp [hhit]
    · intro hslow
      have hnpos : ¬ s.fast_mode_counter > 0 := by omega
      have hint1 : (computeRefreshInterval opt now s).1 =
          (if now - s.last_change > 3600000 then opt.max_refresh
           else opt.min_refresh) := by
        unfold computeRefreshInterval
        rcases hstrat with h | h <;> rw [h] <;> dsimp only <;> rw [if_neg hnpos] <;>
          split <;> rfl
      refine ⟨hint1, ?_⟩
      by_cases hhit : now - s.last_fetch < (computeRefreshInterval opt now s).1
      · rw [step_hit opt cur fetch now s hsnap hvalid hf hhit]
        rw [hint1] at hhit
        simp [hhit]
      · rw [step_miss opt cur fetch now s hsnap hvalid hf hhit,
          (doFetch_fields fetch now _).1]
        rw [hint1] at hhit
        simp [hhit]
  · decide

/-- C6 witness: the first qualifying call after the detected change uses the
fast interval, through the theorem. -/
theorem C6_witness :
    (computeRefreshInterval c6Opt 3000 c6U0.state).1 = c6Opt.fast_refresh :=
  ((C6_adaptive_fast_mode.1 c6Opt "B" none 3000 c6U0.state (Or.inr rfl)
    (by decide) (by decide) (by decide)).1 (by decide)).1

end IpUtils
